import Mathlib

/-!
Verification of the opal graph plugin's graph engine: a shallow embedding of
the link-derivation pipeline (src/GraphView.ts), the similarity engine
(src/EmbeddingService.ts) and the force-simulation integrators
(src/unnamed/part_004, src/unnamed/part_005), with theorems settling the
spec's claims about them.

Numbers are modelled as real numbers.  JavaScript division whose denominator
is zero produces no finite number (Infinity or NaN); it is modelled by
`jsDiv`, which returns `none` in that case.  Thrown exceptions are modelled
with `Except String`.
-/

namespace Opal

noncomputable section

/-! ## Data model (src/types.ts) -/

inductive NodeType where
  | file
  | tag
deriving DecidableEq

structure BetterGraphSettings where
  defaultLinkThickness : ℝ
  nodeSize : ℝ
  repulsionForce : ℝ
  linkDistance : ℝ
  minLinkThickness : ℝ
  maxLinkThickness : ℝ
  centerForce : ℝ
  openaiApiKey : String
  pineconeApiKey : String
  pineconeEnvironment : String
  pineconeIndexName : String
  useEmbeddings : Bool
  similarityThreshold : ℝ

def DEFAULT_SETTINGS : BetterGraphSettings where
  defaultLinkThickness := 2
  nodeSize := 8
  repulsionForce := 300
  centerForce := 0.3
  linkDistance := 100
  minLinkThickness := 0.5
  maxLinkThickness := 8
  openaiApiKey := ""
  pineconeApiKey := ""
  pineconeEnvironment := ""
  pineconeIndexName := ""
  useEmbeddings := false
  similarityThreshold := 0.3

structure GraphNode where
  id : String
  name : String
  path : String
  x : ℝ
  y : ℝ
  vx : ℝ
  vy : ℝ
  embedding : Option (List ℝ)
  ntype : NodeType
  connectionCount : Option Nat

instance : Inhabited GraphNode :=
  ⟨{ id := "", name := "", path := "", x := 0, y := 0, vx := 0, vy := 0,
     embedding := none, ntype := .file, connectionCount := none }⟩

structure GraphLink where
  source : String
  target : String
  id : String
  similarity : Option ℝ
  thickness : Option ℝ
  ltype : Option String

/-! ## Similarity engine (src/EmbeddingService.ts, calculateCosineSimilarity)

The source loops `for (let i = 0; i < vec1.length; i++)` accumulating the dot
product and the two squared magnitudes; the accumulations are rendered as sums
over `List.range vec1.length`. -/

/-- The value computed by `calculateCosineSimilarity` once the length check has
passed (src/EmbeddingService.ts lines 91-108). -/
def cosineSimilarityVal (vec1 vec2 : List ℝ) : ℝ :=
  let dotProduct := ((List.range vec1.length).map fun i => vec1.getD i 0 * vec2.getD i 0).sum
  let magnitude1 := Real.sqrt (((List.range vec1.length).map fun i => vec1.getD i 0 * vec1.getD i 0).sum)
  let magnitude2 := Real.sqrt (((List.range vec1.length).map fun i => vec2.getD i 0 * vec2.getD i 0).sum)
  if magnitude1 = 0 ∨ magnitude2 = 0 then 0
  else dotProduct / (magnitude1 * magnitude2)

/-- src/EmbeddingService.ts lines 86-109: the length guard throws
`'Vectors must have the same length'`; otherwise the cosine similarity value
is returned. -/
def calculateCosineSimilarity (vec1 vec2 : List ℝ) : Except String ℝ :=
  if vec1.length ≠ vec2.length then Except.error "Vectors must have the same length"
  else Except.ok (cosineSimilarityVal vec1 vec2)

/-! Spec-side vocabulary for the cosine-similarity claims: dot product and
Euclidean magnitude of a vector, written directly from the spec's
`dot(a,b) / (|a|*|b|)`. -/

def dotProduct (a b : List ℝ) : ℝ := (List.zipWith (· * ·) a b).sum

def magnitude (a : List ℝ) : ℝ := Real.sqrt ((a.map fun x => x * x).sum)

/-! ## Thickness mapping (src/GraphView.ts, calculateThicknessFromSimilarity) -/

/-- JavaScript number division: a zero denominator yields Infinity or NaN,
i.e. no finite result, modelled as `none`. -/
def jsDiv (a b : ℝ) : Option ℝ := if b = 0 then none else some (a / b)

/-- src/GraphView.ts lines 320-326: normalizedSimilarity is
`(similarity - threshold) / (1.0 - threshold)` (no guard on the denominator),
and the result is `min + normalizedSimilarity * (max - min)`. -/
def calculateThicknessFromSimilarity (st : BetterGraphSettings) (similarity : ℝ) : Option ℝ :=
  (jsDiv (similarity - st.similarityThreshold) (1 - st.similarityThreshold)).map
    fun normalizedSimilarity =>
      st.minLinkThickness + normalizedSimilarity * (st.maxLinkThickness - st.minLinkThickness)

/-! ## The document collaborator (Obsidian vault and metadata cache)

`loadGraphData` (src/GraphView.ts lines 98-206) reads, for every markdown
file: its path and basename, its metadata cache (tags, the `ai-tags`
frontmatter field, outbound links), the locally cached embedding, and the
host's link resolution `getFirstLinkpathDest`.  `JSON.parse` is a host
primitive: it is modelled as a function producing `none` on a parse failure,
`some (arr ...)` for a JSON array of strings and `some nonArray` for any
other successfully parsed value. -/

inductive JsonValue where
  | arr (tags : List String)
  | nonArray
deriving DecidableEq

/-- The `ai-tags` frontmatter field: a native array, a string, or anything
else (absence is `Option.none` at the use site). -/
inductive AiTagsValue where
  | arr (tags : List String)
  | str (s : String)
  | other
deriving DecidableEq

structure FileCache where
  tags : List String
  aiTags : Option AiTagsValue
  links : List String
deriving DecidableEq

structure VaultFile where
  path : String
  basename : String
  cache : Option FileCache
deriving DecidableEq

structure Vault where
  files : List VaultFile
  resolve : String → String → Option String
  embeddingOf : String → Option (List ℝ)
  jsonParse : String → Option JsonValue

/-! ## Permissive quoted-substring extraction

Model of `aiTags.match(/["']([^"']+)["']/g)` followed by
`.replace(/["']/g, '')` on every match (src/GraphView.ts lines 154-161 and
246-250).  The regex scans left to right; at a quote character it matches a
maximal nonempty run of non-quote characters followed by another quote
character, and the surrounding quotes are stripped from the match.  The
scanner is written with explicit fuel (one unit per examined character) so
that it evaluates by kernel reduction; `extractQuotedTags` supplies fuel equal
to the string length, which the scanner never exhausts. -/

def isQuoteChar (c : Char) : Bool := c = '"' || c = Char.ofNat 39

def extractQuotedAux : Nat → List Char → List String
  | 0, _ => []
  | _, [] => []
  | fuel + 1, c :: rest =>
    if isQuoteChar c then
      let body := rest.takeWhile fun d => !(isQuoteChar d)
      match rest.drop body.length with
      | _ :: rest2 =>
        if body.isEmpty then extractQuotedAux fuel rest
        else String.mk body :: extractQuotedAux fuel rest2
      | [] => extractQuotedAux fuel rest
    else extractQuotedAux fuel rest

def extractQuotedTags (s : String) : List String :=
  extractQuotedAux s.data.length s.data

/-- The AI-tag list extracted from the `ai-tags` frontmatter value
(src/GraphView.ts lines 136-164, identical parsing at lines 232-252): a
native array is used as is; a string is parsed as JSON first, keeping only an
array result; on a parse failure the permissive quoted-substring extraction
runs; anything else contributes nothing. -/
def parseAiTags (jsonParse : String → Option JsonValue) : Option AiTagsValue → List String
  | some (.arr tags) => tags
  | some (.str s) =>
    match jsonParse s with
    | some (.arr parsed) => parsed
    | some .nonArray => []
    | none => extractQuotedTags s
  | some .other => []
  | none => []

/-! ## Node construction (src/GraphView.ts lines 104-185) -/

def mkFileNode (v : Vault) (f : VaultFile) : GraphNode :=
  { id := f.path, name := f.basename, path := f.path,
    x := 0, y := 0, vx := 0, vy := 0,
    embedding := v.embeddingOf f.path, ntype := .file, connectionCount := none }

/-- `Map.set` over a values list: replace the value stored under an existing
key in place, or append a new entry. -/
def insertNode (m : List GraphNode) (n : GraphNode) : List GraphNode :=
  if m.any fun o => o.id = n.id then
    m.map fun o => if o.id = n.id then n else o
  else m ++ [n]

/-- `Array.from(nodeMap.values())` after `nodeMap.set(file.path, ...)` for
every markdown file, in vault order. -/
def buildFileNodes (v : Vault) : List GraphNode :=
  v.files.foldl (fun m f => insertNode m (mkFileNode v f)) []

/-- `nodeMap.has p`. -/
def nodeMapHas (v : Vault) (p : String) : Bool :=
  (buildFileNodes v).any fun n => n.id = p

/-- All tag occurrences contributed by one file: `cache.tags` entries as they
come (already carrying `#`), then the AI tags each prefixed with `#`
(src/GraphView.ts lines 125-166). -/
def fileTagOccurrences (jsonParse : String → Option JsonValue) (f : VaultFile) : List String :=
  match f.cache with
  | none => []
  | some c => c.tags ++ (parseAiTags jsonParse c.aiTags).map fun t => "#" ++ t

def allTagOccurrences (v : Vault) : List String :=
  v.files.flatMap (fileTagOccurrences v.jsonParse)

/-- Insertion-ordered set semantics of the `allTags : Set<string>`. -/
def insertTag (l : List String) (t : String) : List String :=
  if l.contains t then l else l ++ [t]

def allTags (v : Vault) : List String :=
  (allTagOccurrences v).foldl insertTag []

/-- `tagConnectionCount.get(tag) || 1` (src/GraphView.ts line 179). -/
def tagConnectionCount (v : Vault) (t : String) : Nat :=
  let c := (allTagOccurrences v).count t
  if c = 0 then 1 else c

def mkTagNode (v : Vault) (t : String) : GraphNode :=
  { id := t, name := t, path := t,
    x := 0, y := 0, vx := 0, vy := 0,
    embedding := none, ntype := .tag, connectionCount := some (tagConnectionCount v t) }

def buildTagNodes (v : Vault) : List GraphNode :=
  (allTags v).map (mkTagNode v)

/-- `tagNodes.has t`. -/
def tagNodesHas (v : Vault) (t : String) : Bool :=
  (allTags v).contains t

/-! ## Link builders (src/GraphView.ts lines 208-318) -/

/-- src/GraphView.ts lines 300-318: for every outbound reference of every
file, resolve it; emit a link only when the target resolves to a path present
in the node map, with the default thickness. -/
def createTraditionalLinks (v : Vault) (st : BetterGraphSettings) : List GraphLink :=
  v.files.flatMap fun file =>
    match file.cache with
    | none => []
    | some c =>
      c.links.filterMap fun link =>
        match v.resolve link file.path with
        | some targetPath =>
          if nodeMapHas v targetPath then
            some { source := file.path, target := targetPath,
                   id := file.path ++ "->" ++ targetPath,
                   similarity := none, thickness := some st.defaultLinkThickness,
                   ltype := none }
          else none
        | none => none

/-- The index pairs visited by the nested loops
`for i ...; for (j = i + 1; ...)`. -/
def allPairs (n : Nat) : List (Nat × Nat) :=
  (List.range n).flatMap fun i => (List.range' (i + 1) (n - (i + 1))).map fun j => (i, j)

/-- src/GraphView.ts lines 270-298, body of the pair loop: when both nodes of
the pair carry an embedding, compute the cosine similarity (a thrown
dimension-mismatch error propagates) and push one link exactly when
`similarity >= similarityThreshold`. -/
def emitEmbeddingLinks (st : BetterGraphSettings) (nodes : List GraphNode) :
    List (Nat × Nat) → Except String (List GraphLink)
  | [] => Except.ok []
  | (i, j) :: rest =>
    let nodeA := nodes.getD i default
    let nodeB := nodes.getD j default
    match nodeA.embedding, nodeB.embedding with
    | some ea, some eb =>
      match calculateCosineSimilarity ea eb with
      | Except.error e => Except.error e
      | Except.ok similarity =>
        match emitEmbeddingLinks st nodes rest with
        | Except.error e => Except.error e
        | Except.ok ls =>
          Except.ok
            ((if st.similarityThreshold ≤ similarity then
                [{ source := nodeA.id, target := nodeB.id,
                   id := nodeA.id ++ "<->" ++ nodeB.id,
                   similarity := some similarity,
                   thickness := calculateThicknessFromSimilarity st similarity,
                   ltype := none }]
              else []) ++ ls)
    | _, _ => emitEmbeddingLinks st nodes rest

def createEmbeddingBasedLinks (st : BetterGraphSettings) (nodes : List GraphNode) :
    Except String (List GraphLink) :=
  emitEmbeddingLinks st nodes (allPairs nodes.length)

/-- `tag.startsWith('#') ? tag : '#' + tag` (src/GraphView.ts line 255). -/
def hashify (t : String) : String :=
  if t.startsWith "#" then t else "#" ++ t

/-- src/GraphView.ts lines 208-268: for every file with a node and a cache,
link it to the tag node of each of its cache tags and of each of its AI tags
(hash-prefixed unless already prefixed), dropping tags without a tag node. -/
def createTagLinks (v : Vault) : List GraphLink :=
  v.files.flatMap fun file =>
    match file.cache with
    | none => []
    | some c =>
      if nodeMapHas v file.path then
        (c.tags.filterMap fun t =>
          if tagNodesHas v t then
            some { source := file.path, target := t,
                   id := file.path ++ "-tag-" ++ t,
                   similarity := none, thickness := none, ltype := some "tag-link" }
          else none)
        ++ ((parseAiTags v.jsonParse c.aiTags).filterMap fun t =>
          let tagWithHash := hashify t
          if tagNodesHas v tagWithHash then
            some { source := file.path, target := tagWithHash,
                   id := file.path ++ "-ai-tag-" ++ tagWithHash,
                   similarity := none, thickness := none, ltype := some "tag-link" }
          else none)
      else []

/-- src/GraphView.ts lines 98-206: build the file nodes, the tag nodes when
`showTags` is on, then the document-to-document links — embedding-based when
`useEmbeddings` is set and some node carries an embedding, traditional
otherwise — and finally the tag links when `showTags` is on. -/
def loadGraphData (v : Vault) (st : BetterGraphSettings) (showTags : Bool) :
    Except String (List GraphNode × List GraphLink) :=
  let fileNodes := buildFileNodes v
  let nodes := fileNodes ++ (if showTags then buildTagNodes v else [])
  match (if st.useEmbeddings && nodes.any fun n => n.embedding.isSome then
           createEmbeddingBasedLinks st fileNodes
         else Except.ok (createTraditionalLinks v st)) with
  | Except.error e => Except.error e
  | Except.ok fileLinks =>
    Except.ok (nodes, fileLinks ++ (if showTags then createTagLinks v else []))

/-! ## Force simulation (src/unnamed/part_005 `updatePhysics`, lines 159-225,
and src/unnamed/part_004 `updatePhysics`, lines 371-430)

Both variants mutate a node array in place: force phases add to the
velocities (positions are only read), then the integration loop damps each
velocity and moves each node, skipping the node under drag.  The array is
modelled as a list, in-place field updates as `modifyAt`, and the node under
drag (`this.dragNode`, compared by object identity) as an optional index. -/

structure PhysNode where
  id : String
  x : ℝ
  y : ℝ
  vx : ℝ
  vy : ℝ

instance : Inhabited PhysNode := ⟨{ id := "", x := 0, y := 0, vx := 0, vy := 0 }⟩

structure PhysLink where
  source : String
  target : String

def modifyAt (f : PhysNode → PhysNode) : Nat → List PhysNode → List PhysNode
  | _, [] => []
  | 0, n :: rest => f n :: rest
  | k + 1, n :: rest => n :: modifyAt f k rest

def mapWithIndex (f : Nat → PhysNode → PhysNode) : Nat → List PhysNode → List PhysNode
  | _, [] => []
  | k, n :: rest => f k n :: mapWithIndex f (k + 1) rest

def addVel (dvx dvy : ℝ) (n : PhysNode) : PhysNode :=
  { n with vx := n.vx + dvx, vy := n.vy + dvy }

/-- `Math.sqrt(dx*dx + dy*dy) || 1`: the JavaScript `|| 1` turns a zero (falsy)
distance into 1. -/
def jsOr1 (x : ℝ) : ℝ := if x = 0 then 1 else x

/-- One inner-loop step of the repulsion phase shared by both variants:
inverse-square repulsion between nodes `i` and `j` applied to both
velocities.  `cutoff` is `true` for the part_005 variant, whose source guards
the push with `if (distance < 200)`. -/
def repulsionPair (cutoff : Bool) (repulsionForce : ℝ) (nodes : List PhysNode)
    (i j : Nat) : List PhysNode :=
  let nodeA := nodes.getD i default
  let nodeB := nodes.getD j default
  let dx := nodeB.x - nodeA.x
  let dy := nodeB.y - nodeA.y
  let distance := jsOr1 (Real.sqrt (dx * dx + dy * dy))
  if cutoff = false ∨ distance < 200 then
    let force := repulsionForce / (distance * distance)
    let fx := dx / distance * force
    let fy := dy / distance * force
    modifyAt (addVel fx fy) j (modifyAt (addVel (-fx) (-fy)) i nodes)
  else nodes

/-- `nodeA.vx += dx * 0.0001 * centerForce` (part_005 lines 168-172). -/
def centerPull (centerForce cx cy : ℝ) (n : PhysNode) : PhysNode :=
  { n with vx := n.vx + (cx - n.x) * 0.0001 * centerForce,
           vy := n.vy + (cy - n.y) * 0.0001 * centerForce }

/-- part_005 lines 164-192: for every `i`, the center pull on node `i`, then
repulsion against every `j > i` (with the 200-pixel cutoff). -/
def forcesPhase5 (centerForce repulsionForce w h : ℝ) (nodes : List PhysNode) :
    List PhysNode :=
  (List.range nodes.length).foldl
    (fun ns i =>
      (List.range' (i + 1) (nodes.length - (i + 1))).foldl
        (fun ns2 j => repulsionPair true repulsionForce ns2 i j)
        (modifyAt (centerPull centerForce (w / 2) (h / 2)) i ns))
    nodes

/-- part_004 lines 374-393: plain pairwise repulsion, no cutoff, no center
pull. -/
def repulsionPhase4 (repulsionForce : ℝ) (nodes : List PhysNode) : List PhysNode :=
  (List.range nodes.length).foldl
    (fun ns i =>
      (List.range' (i + 1) (nodes.length - (i + 1))).foldl
        (fun ns2 j => repulsionPair false repulsionForce ns2 i j)
        ns)
    nodes

/-- Hooke spring on one link (part_005 lines 195-213, part_004 lines
396-414): endpoints are looked up by id with `find`; a link with a missing
endpoint contributes nothing. -/
def springLink (linkDistance : ℝ) (nodes : List PhysNode) (l : PhysLink) :
    List PhysNode :=
  match nodes.findIdx? (fun n => n.id = l.source),
        nodes.findIdx? (fun n => n.id = l.target) with
  | some si, some ti =>
    let source := nodes.getD si default
    let target := nodes.getD ti default
    let dx := target.x - source.x
    let dy := target.y - source.y
    let distance := jsOr1 (Real.sqrt (dx * dx + dy * dy))
    let force := (distance - linkDistance) * 0.1
    let fx := dx / distance * force
    let fy := dy / distance * force
    modifyAt (addVel (-fx) (-fy)) ti (modifyAt (addVel fx fy) si nodes)
  | _, _ => nodes

def springPhase (linkDistance : ℝ) (nodes : List PhysNode) (links : List PhysLink) :
    List PhysNode :=
  links.foldl (springLink linkDistance) nodes

/-- part_005 lines 217-224: `vx *= 0.85; x += vx * alpha` (same for y). -/
def integrateNode5 (alpha : ℝ) (n : PhysNode) : PhysNode :=
  let vx := n.vx * 0.85
  let vy := n.vy * 0.85
  { n with vx := vx, vy := vy, x := n.x + vx * alpha, y := n.y + vy * alpha }

/-- part_004 lines 418-429: `vx *= 0.9; x += vx * alpha` then
`x = Math.max(20, Math.min(canvas.width - 20, x))` (same for y). -/
def integrateNode4 (alpha w h : ℝ) (n : PhysNode) : PhysNode :=
  let vx := n.vx * 0.9
  let vy := n.vy * 0.9
  let x := n.x + vx * alpha
  let y := n.y + vy * alpha
  { n with vx := vx, vy := vy,
           x := max 20 (min (w - 20) x), y := max 20 (min (h - 20) y) }

/-- The integration guard `if (!this.isDragging || this.dragNode !== node)`
shared by both variants: integrate unless this very node is under drag. -/
def notDragged (isDragging : Bool) (dragNode : Option Nat) (k : Nat) : Prop :=
  isDragging = false ∨ dragNode ≠ some k

instance : ∀ b d k, Decidable (notDragged b d k) := by
  intro b d k; unfold notDragged; infer_instance

/-- part_005 `updatePhysics` (lines 159-225): center+repulsion forces, spring
forces, then damped integration at `alpha = 0.1`, skipping the dragged
node. -/
def updatePhysics5 (centerForce repulsionForce linkDistance w h : ℝ)
    (isDragging : Bool) (dragNode : Option Nat)
    (nodes : List PhysNode) (links : List PhysLink) : List PhysNode :=
  mapWithIndex
    (fun k n => if notDragged isDragging dragNode k then integrateNode5 0.1 n else n) 0
    (springPhase linkDistance (forcesPhase5 centerForce repulsionForce w h nodes) links)

/-- part_004 `updatePhysics` (lines 371-430): repulsion forces, spring
forces, then damped integration at `alpha = 0.1` with the position clamped
into the canvas, skipping the dragged node. -/
def updatePhysics4 (repulsionForce linkDistance w h : ℝ)
    (isDragging : Bool) (dragNode : Option Nat)
    (nodes : List PhysNode) (links : List PhysLink) : List PhysNode :=
  mapWithIndex
    (fun k n => if notDragged isDragging dragNode k then integrateNode4 0.1 w h n else n) 0
    (springPhase linkDistance (repulsionPhase4 repulsionForce nodes) links)

/-! ## Concrete sample inputs used to instantiate the theorems -/

def fileA : VaultFile :=
  { path := "A.md", basename := "A",
    cache := some { tags := [], aiTags := none, links := ["B"] } }

def fileB : VaultFile :=
  { path := "B.md", basename := "B",
    cache := some { tags := [], aiTags := none, links := [] } }

/-- A two-file vault in which `A.md` holds one reference resolving to `B.md`,
nothing carries an embedding, and JSON parsing always fails. -/
def sampleVault : Vault :=
  { files := [fileA, fileB],
    resolve := fun link _ => if link = "B" then some "B.md" else none,
    embeddingOf := fun _ => none,
    jsonParse := fun _ => none }

def embSettings : BetterGraphSettings :=
  { DEFAULT_SETTINGS with useEmbeddings := true }

def thresholdOneSettings : BetterGraphSettings :=
  { DEFAULT_SETTINGS with similarityThreshold := 1 }

/-- A single stationary physics node at (90, 90). -/
def node90 : PhysNode := { id := "n", x := 90, y := 90, vx := 0, vy := 0 }

/-- A node update that touches only the velocity: position and identity are
unchanged. -/
def PreservesPos (f : PhysNode → PhysNode) : Prop :=
  ∀ n, (f n).x = n.x ∧ (f n).y = n.y ∧ (f n).id = n.id

/-- Two node arrays of equal length whose entries agree on position and
identity (the force phases relate input and output this way). -/
def SamePos (a b : List PhysNode) : Prop :=
  b.length = a.length ∧
  ∀ k, (b.getD k default).x = (a.getD k default).x ∧
       (b.getD k default).y = (a.getD k default).y ∧
       (b.getD k default).id = (a.getD k default).id

/-! ## Lemmas about the similarity engine -/

theorem range_map_getD_mul (a : List ℝ) :
    ∀ b : List ℝ, a.length = b.length →
      ((List.range a.length).map fun i => a.getD i 0 * b.getD i 0)
        = List.zipWith (· * ·) a b := by
  induction a with
  | nil =>
    intro b h
    cases b with
    | nil => simp
    | cons y ys => simp at h
  | cons x xs ih =>
    intro b h
    cases b with
    | nil => simp at h
    | cons y ys =>
      have hlen : xs.length = ys.length := by simpa using h
      simp only [List.length_cons, List.range_succ_eq_map, List.map_cons,
        List.map_map, List.zipWith_cons_cons, List.getD_cons_zero]
      refine congrArg (List.cons (x * y)) ?_
      rw [← ih ys hlen]
      rfl

theorem zipWith_mul_self (a : List ℝ) :
    List.zipWith (· * ·) a a = a.map fun x => x * x := by
  induction a with
  | nil => rfl
  | cons x xs ih => simp [ih]

/-! ## Claim theorems for the similarity engine -/

/-- C3: for every pair of equal-length vectors, `calculateCosineSimilarity`
returns 0 when either vector has zero magnitude and otherwise
`dot(a,b) / (|a| * |b|)`. -/
theorem claim_C3_cosine_similarity_value (a b : List ℝ) (h : a.length = b.length) :
    calculateCosineSimilarity a b =
      Except.ok (if magnitude a = 0 ∨ magnitude b = 0 then 0
                 else dotProduct a b / (magnitude a * magnitude b)) := by
  unfold calculateCosineSimilarity cosineSimilarityVal
  rw [if_neg (by simp [h])]
  have h1 : ((List.range a.length).map fun i => a.getD i 0 * b.getD i 0)
      = List.zipWith (· * ·) a b := range_map_getD_mul a b h
  have h2 : ((List.range a.length).map fun i => a.getD i 0 * a.getD i 0)
      = a.map fun x => x * x := by
    rw [range_map_getD_mul a a rfl, zipWith_mul_self]
  have h3 : ((List.range a.length).map fun i => b.getD i 0 * b.getD i 0)
      = b.map fun x => x * x := by
    rw [h, range_map_getD_mul b b rfl, zipWith_mul_self]
  rw [h1, h2, h3]
  rfl

/-- C3 witness: the zero vector `[0]` against `[5]` yields similarity 0. -/
theorem claim_C3_witness : calculateCosineSimilarity [(0 : ℝ)] [(5 : ℝ)] = Except.ok 0 := by
  rw [claim_C3_cosine_similarity_value [(0 : ℝ)] [(5 : ℝ)] rfl]
  have : magnitude [(0 : ℝ)] = 0 := by
    simp [magnitude]
  rw [if_pos (Or.inl this)]

/-- C4: `calculateCosineSimilarity` throws the dimension-mismatch error
exactly when the lengths differ, and returns a value exactly when they are
equal. -/
theorem claim_C4_dimension_mismatch (a b : List ℝ) :
    (calculateCosineSimilarity a b = Except.error "Vectors must have the same length"
        ↔ a.length ≠ b.length) ∧
    ((∃ v, calculateCosineSimilarity a b = Except.ok v) ↔ a.length = b.length) := by
  unfold calculateCosineSimilarity
  by_cases h : a.length = b.length <;> simp [h]

/-- C5: with `similarityThreshold < 1`, the thickness mapping sends the
threshold to `minLinkThickness` and 1 to `maxLinkThickness`. -/
theorem claim_C5_thickness_endpoints (st : BetterGraphSettings)
    (h : st.similarityThreshold < 1) :
    calculateThicknessFromSimilarity st st.similarityThreshold
        = some st.minLinkThickness ∧
    calculateThicknessFromSimilarity st 1 = some st.maxLinkThickness := by
  have hd : (1 : ℝ) - st.similarityThreshold ≠ 0 := by
    rw [sub_ne_zero]
    exact fun e => absurd e.symm (ne_of_lt h)
  unfold calculateThicknessFromSimilarity jsDiv
  rw [if_neg hd]
  refine ⟨?_, ?_⟩
  · rw [Option.map_some', sub_self, zero_div]
    norm_num
  · rw [if_neg hd, Option.map_some', div_self hd]
    congr 1
    ring

/-- C5 witness: the default settings (threshold 0.3, thickness range
[0.5, 8]) hit both endpoints. -/
theorem claim_C5_witness :
    calculateThicknessFromSimilarity DEFAULT_SETTINGS 0.3 = some 0.5 ∧
    calculateThicknessFromSimilarity DEFAULT_SETTINGS 1 = some 8 := by
  have h := claim_C5_thickness_endpoints DEFAULT_SETTINGS (by norm_num [DEFAULT_SETTINGS])
  simpa [DEFAULT_SETTINGS] using h

/-- C6: the code does NOT guard the zero denominator: with
`similarityThreshold = 1` the division by `1 - threshold = 0` is reached for
every similarity input and produces no finite thickness.  (The claim asserts
a guard returning `maxLinkThickness`; none exists in
`calculateThicknessFromSimilarity`, src/GraphView.ts lines 320-326.) -/
theorem claim_C6_threshold_one_division_by_zero (st : BetterGraphSettings)
    (h : st.similarityThreshold = 1) (s : ℝ) :
    calculateThicknessFromSimilarity st s = none := by
  unfold calculateThicknessFromSimilarity jsDiv
  rw [h]
  norm_num

/-- C6 witness: at threshold 1 and similarity 1 (a linking similarity), the
thickness computation divides by zero instead of returning
`maxLinkThickness`. -/
theorem claim_C6_witness :
    calculateThicknessFromSimilarity thresholdOneSettings 1 = none :=
  claim_C6_threshold_one_division_by_zero thresholdOneSettings rfl 1

/-- C8: when the JSON parse of a string-valued `ai-tags` field fails, tag
collection falls back to the permissive quoted-substring extraction (it never
propagates the failure), and on the malformed input
`"not json [unterminated"` that extraction yields zero tags. -/
theorem claim_C8_malformed_ai_tags (jp : String → Option JsonValue) (s : String)
    (h : jp s = none) :
    parseAiTags jp (some (AiTagsValue.str s)) = extractQuotedTags s ∧
    extractQuotedTags "not json [unterminated" = [] := by
  constructor
  · simp only [parseAiTags, h]
  · decide

/-- C8 witness: a parser failing on the malformed example string. -/
theorem claim_C8_witness :
    parseAiTags (fun _ => none) (some (AiTagsValue.str "not json [unterminated"))
        = extractQuotedTags "not json [unterminated" ∧
    extractQuotedTags "not json [unterminated" = [] :=
  claim_C8_malformed_ai_tags (fun _ => none) "not json [unterminated" rfl

/-! ## Lemmas about the node map and the link builders -/

theorem insertNode_any_id (m : List GraphNode) (n : GraphNode) (p : String) :
    ((insertNode m n).any fun o => o.id = p)
      = ((m.any fun o => o.id = p) || decide (n.id = p)) := by
  unfold insertNode
  by_cases hm : (m.any fun o => o.id = n.id) = true
  · rw [if_pos hm]
    have hfun : (fun o : GraphNode => decide ((if o.id = n.id then n else o).id = p))
        = fun o => decide (o.id = p) := by
      funext o
      by_cases ho : o.id = n.id
      · rw [if_pos ho, ho]
      · rw [if_neg ho]
    rw [List.any_map]
    have hcomp : ((fun o : GraphNode => decide (o.id = p)) ∘
        fun o : GraphNode => if o.id = n.id then n else o)
        = fun o : GraphNode => decide (o.id = p) := hfun
    rw [hcomp]
    by_cases hp : n.id = p
    · obtain ⟨o, ho, hoid⟩ := List.any_eq_true.mp hm
      have : (m.any fun o => o.id = p) = true :=
        List.any_eq_true.mpr ⟨o, ho, by simp at hoid ⊢; rw [hoid, hp]⟩
      simp [this]
    · simp [hp]
  · rw [if_neg hm, List.any_append]
    simp

theorem buildFileNodes_any_id (v : Vault) (files : List VaultFile) :
    ∀ (m : List GraphNode) (p : String),
      ((files.foldl (fun m f => insertNode m (mkFileNode v f)) m).any fun o => o.id = p)
        = ((m.any fun o => o.id = p) || files.any fun f => f.path = p) := by
  induction files with
  | nil => intro m p; simp
  | cons f fs ih =>
    intro m p
    rw [List.foldl_cons, ih, insertNode_any_id]
    simp [mkFileNode, Bool.or_assoc]

theorem nodeMapHas_exists_node (v : Vault) (p : String) (h : nodeMapHas v p = true) :
    ∃ n ∈ buildFileNodes v, n.id = p := by
  unfold nodeMapHas at h
  simpa using List.any_eq_true.mp h

theorem nodeMapHas_of_file (v : Vault) (f : VaultFile) (hf : f ∈ v.files) :
    nodeMapHas v f.path = true := by
  unfold nodeMapHas buildFileNodes
  rw [buildFileNodes_any_id v v.files [] f.path]
  simp only [List.any_nil, Bool.false_or]
  exact List.any_eq_true.mpr ⟨f, hf, by simp⟩

theorem tagNodesHas_exists_node (v : Vault) (t : String) (h : tagNodesHas v t = true) :
    ∃ n ∈ buildTagNodes v, n.id = t := by
  unfold tagNodesHas at h
  have ht : t ∈ allTags v := by simpa using h
  exact ⟨mkTagNode v t, List.mem_map_of_mem (mkTagNode v) ht, rfl⟩

theorem createTraditionalLinks_endpoints (v : Vault) (st : BetterGraphSettings)
    (l : GraphLink) (hl : l ∈ createTraditionalLinks v st) :
    nodeMapHas v l.source = true ∧ nodeMapHas v l.target = true := by
  unfold createTraditionalLinks at hl
  obtain ⟨f, hf, hmem⟩ := List.mem_flatMap.mp hl
  cases hc : f.cache with
  | none => rw [hc] at hmem; simp at hmem
  | some c =>
    rw [hc] at hmem
    obtain ⟨link, _, hsome⟩ := List.mem_filterMap.mp hmem
    cases hr : v.resolve link f.path with
    | none => rw [hr] at hsome; simp at hsome
    | some targetPath =>
      rw [hr] at hsome
      dsimp only at hsome
      by_cases hh : nodeMapHas v targetPath = true
      · rw [if_pos hh] at hsome
        obtain rfl := Option.some.inj hsome
        exact ⟨nodeMapHas_of_file v f hf, hh⟩
      · rw [if_neg hh] at hsome
        simp at hsome

theorem createTagLinks_endpoints (v : Vault) (l : GraphLink)
    (hl : l ∈ createTagLinks v) :
    nodeMapHas v l.source = true ∧ tagNodesHas v l.target = true := by
  unfold createTagLinks at hl
  obtain ⟨f, _, hmem⟩ := List.mem_flatMap.mp hl
  cases hc : f.cache with
  | none => rw [hc] at hmem; simp at hmem
  | some c =>
    rw [hc] at hmem
    dsimp only at hmem
    by_cases hh : nodeMapHas v f.path = true
    · rw [if_pos hh] at hmem
      rcases List.mem_append.mp hmem with hmem1 | hmem2
      · obtain ⟨t, _, hsome⟩ := List.mem_filterMap.mp hmem1
        by_cases hht : tagNodesHas v t = true
        · rw [if_pos hht] at hsome
          obtain rfl := Option.some.inj hsome
          exact ⟨hh, hht⟩
        · rw [if_neg hht] at hsome
          simp at hsome
      · obtain ⟨t, _, hsome⟩ := List.mem_filterMap.mp hmem2
        by_cases hht : tagNodesHas v (hashify t) = true
        · rw [if_pos hht] at hsome
          obtain rfl := Option.some.inj hsome
          exact ⟨hh, hht⟩
        · rw [if_neg hht] at hsome
          simp at hsome
    · rw [if_neg hh] at hmem
      simp at hmem

theorem mem_allPairs {n i j : Nat} : (i, j) ∈ allPairs n ↔ i < j ∧ j < n := by
  simp only [allPairs, List.mem_flatMap, List.mem_range, List.mem_map,
    List.mem_range'_1, Prod.mk.injEq]
  constructor
  · rintro ⟨a, ha, b, hb, rfl, rfl⟩
    omega
  · rintro ⟨hij, hjn⟩
    exact ⟨i, by omega, j, by omega, rfl, rfl⟩

theorem getD_mem_of_lt {l : List GraphNode} {k : Nat} (h : k < l.length) :
    l.getD k default ∈ l := by
  rw [List.getD_eq_getElem?_getD, List.getElem?_eq_getElem h, Option.getD_some]
  exact List.getElem_mem h

theorem emitEmbeddingLinks_endpoints (st : BetterGraphSettings) (nodes : List GraphNode) :
    ∀ (ps : List (Nat × Nat)) (L : List GraphLink),
      emitEmbeddingLinks st nodes ps = Except.ok L →
      ∀ l ∈ L, ∃ p ∈ ps, l.source = (nodes.getD p.1 default).id
        ∧ l.target = (nodes.getD p.2 default).id := by
  intro ps
  induction ps with
  | nil =>
    intro L h l hl
    simp only [emitEmbeddingLinks] at h
    obtain rfl := Except.ok.inj h
    simp at hl
  | cons p rest ih =>
    intro L h l hl
    obtain ⟨i, j⟩ := p
    simp only [emitEmbeddingLinks] at h
    cases hA : (nodes.getD i default).embedding with
    | none =>
      rw [hA] at h
      dsimp only at h
      obtain ⟨q, hq, hsrc⟩ := ih L h l hl
      exact ⟨q, List.mem_cons_of_mem _ hq, hsrc⟩
    | some ea =>
      rw [hA] at h
      cases hB : (nodes.getD j default).embedding with
      | none =>
        rw [hB] at h
        dsimp only at h
        obtain ⟨q, hq, hsrc⟩ := ih L h l hl
        exact ⟨q, List.mem_cons_of_mem _ hq, hsrc⟩
      | some eb =>
        rw [hB] at h
        dsimp only at h
        cases hC : calculateCosineSimilarity ea eb with
        | error e => rw [hC] at h; simp at h
        | ok similarity =>
          rw [hC] at h
          dsimp only at h
          cases hR : emitEmbeddingLinks st nodes rest with
          | error e => rw [hR] at h; simp at h
          | ok ls =>
            rw [hR] at h
            dsimp only at h
            obtain rfl := Except.ok.inj h
            rcases List.mem_append.mp hl with hseg | hrest
            · by_cases hth : st.similarityThreshold ≤ similarity
              · rw [if_pos hth] at hseg
                obtain rfl | habs := List.mem_cons.mp hseg
                · exact ⟨(i, j), List.mem_cons_self _ _, rfl, rfl⟩
                · simp at habs
              · rw [if_neg hth] at hseg
                simp at hseg
            · obtain ⟨q, hq, hsrc⟩ := ih ls hR l hrest
              exact ⟨q, List.mem_cons_of_mem _ hq, hsrc⟩

/-- C2: every link of a rebuild has both endpoint ids among the ids of the
node set of that same rebuild (unresolvable or filtered targets yield no
link and no error). -/
theorem claim_C2_link_endpoints_in_node_set (v : Vault) (st : BetterGraphSettings)
    (showTags : Bool) (nodes : List GraphNode) (links : List GraphLink)
    (hok : loadGraphData v st showTags = Except.ok (nodes, links))
    (l : GraphLink) (hl : l ∈ links) :
    (∃ n ∈ nodes, n.id = l.source) ∧ (∃ n ∈ nodes, n.id = l.target) := by
  have hfileNode : ∀ q : String, nodeMapHas v q = true →
      ∃ n ∈ buildFileNodes v ++ (if showTags then buildTagNodes v else []), n.id = q := by
    intro q hq
    obtain ⟨n, hn, hid⟩ := nodeMapHas_exists_node v q hq
    exact ⟨n, List.mem_append_left _ hn, hid⟩
  simp only [loadGraphData] at hok
  by_cases hcond : (st.useEmbeddings &&
      ((buildFileNodes v ++ if showTags then buildTagNodes v else []).any
        fun n => n.embedding.isSome)) = true
  · rw [if_pos hcond] at hok
    cases hE : createEmbeddingBasedLinks st (buildFileNodes v) with
    | error e => rw [hE] at hok; simp at hok
    | ok fileLinks =>
      rw [hE] at hok
      dsimp only at hok
      injection hok with hpair
      injection hpair with hnodes hlinks
      subst hnodes
      subst hlinks
      rcases List.mem_append.mp hl with hfl | htl
      · have hmem := emitEmbeddingLinks_endpoints st (buildFileNodes v) _ _ hE l hfl
        obtain ⟨⟨i, j⟩, hp, hsrc, htgt⟩ := hmem
        have hij := mem_allPairs.mp hp
        have hi : i < (buildFileNodes v).length := by omega
        have hj : j < (buildFileNodes v).length := hij.2
        constructor
        · exact ⟨(buildFileNodes v).getD i default,
            List.mem_append_left _ (getD_mem_of_lt hi), hsrc.symm⟩
        · exact ⟨(buildFileNodes v).getD j default,
            List.mem_append_left _ (getD_mem_of_lt hj), htgt.symm⟩
      · rcases hst : showTags with _ | _
        · subst hst; simp at htl
        · subst hst
          rw [if_pos rfl] at htl
          obtain ⟨hsrc, htgt⟩ := createTagLinks_endpoints v l htl
          obtain ⟨n, hn, hid⟩ := tagNodesHas_exists_node v l.target htgt
          refine ⟨hfileNode _ hsrc, ⟨n, ?_, hid⟩⟩
          exact List.mem_append_right _ (by rw [if_pos rfl]; exact hn)
  · rw [if_neg hcond] at hok
    dsimp only at hok
    injection hok with hpair
    injection hpair with hnodes hlinks
    subst hnodes
    subst hlinks
    rcases List.mem_append.mp hl with hfl | htl
    · obtain ⟨hsrc, htgt⟩ := createTraditionalLinks_endpoints v st l hfl
      exact ⟨hfileNode _ hsrc, hfileNode _ htgt⟩
    · rcases hst : showTags with _ | _
      · subst hst; simp at htl
      · subst hst
        rw [if_pos rfl] at htl
        obtain ⟨hsrc, htgt⟩ := createTagLinks_endpoints v l htl
        obtain ⟨n, hn, hid⟩ := tagNodesHas_exists_node v l.target htgt
        refine ⟨hfileNode _ hsrc, ⟨n, ?_, hid⟩⟩
        exact List.mem_append_right _ (by rw [if_pos rfl]; exact hn)

/-- C2 witness: the two-file sample vault produces exactly one link, and its
endpoints are both nodes of the same rebuild. -/
theorem claim_C2_witness :
    ∃ nodes links, loadGraphData sampleVault DEFAULT_SETTINGS false = Except.ok (nodes, links) ∧
      links.length = 1 ∧
      ∀ l ∈ links, (∃ n ∈ nodes, n.id = l.source) ∧ (∃ n ∈ nodes, n.id = l.target) := by
  refine ⟨_, _, rfl, rfl, ?_⟩
  intro l hl
  exact claim_C2_link_endpoints_in_node_set sampleVault DEFAULT_SETTINGS false _ _ rfl l hl

/-! ## Strategy selection (claim C7) -/

/-- C7 counterexample: the claim says `useEmbeddingLinking = true` alone makes
the semantic-similarity strategy produce the links.  It is false: on a vault
with no embeddings but one resolvable reference, `loadGraphData` with
`useEmbeddings = true` emits the explicit-reference link, which the
semantic-similarity strategy does not produce. -/
theorem claim_C7_counterexample :
    ¬ (∀ (v : Vault) (st : BetterGraphSettings) (nodes : List GraphNode)
        (links : List GraphLink),
        st.useEmbeddings = true →
        loadGraphData v st false = Except.ok (nodes, links) →
        createEmbeddingBasedLinks st (buildFileNodes v) = Except.ok links) := by
  intro hclaim
  have h1 := hclaim sampleVault embSettings _ _ rfl rfl
  have h2 : createEmbeddingBasedLinks embSettings (buildFileNodes sampleVault)
      = Except.ok [] := rfl
  rw [h2] at h1
  simp only [Except.ok.injEq] at h1
  have hlen : (createTraditionalLinks sampleVault embSettings).length = 1 := rfl
  have h4 : (createTraditionalLinks sampleVault embSettings
      ++ if false = true then createTagLinks sampleVault else []).length = 0 := by
    rw [← h1]
    rfl
  rw [List.length_append, hlen] at h4
  simp at h4

/-- C7 amended: the strategy is selected by `useEmbeddingLinking` together
with embedding availability — the semantic-similarity strategy produces the
document links exactly when the setting is on AND at least one node carries
an embedding, the explicit-reference strategy produces them otherwise, and
exactly one of the two runs in any single rebuild. -/
theorem claim_C7_strategy_selection (v : Vault) (st : BetterGraphSettings)
    (showTags : Bool) :
    loadGraphData v st showTags =
      (if st.useEmbeddings &&
          ((buildFileNodes v ++ if showTags then buildTagNodes v else []).any
            fun n => n.embedding.isSome) then
        (createEmbeddingBasedLinks st (buildFileNodes v)).map fun ls =>
          (buildFileNodes v ++ (if showTags then buildTagNodes v else []),
           ls ++ (if showTags then createTagLinks v else []))
      else
        Except.ok
          (buildFileNodes v ++ (if showTags then buildTagNodes v else []),
           createTraditionalLinks v st
             ++ (if showTags then createTagLinks v else []))) := by
  simp only [loadGraphData]
  by_cases hcond : (st.useEmbeddings &&
      ((buildFileNodes v ++ if showTags then buildTagNodes v else []).any
        fun n => n.embedding.isSome)) = true
  · rw [if_pos hcond, if_pos hcond]
    cases createEmbeddingBasedLinks st (buildFileNodes v) with
    | error e => rfl
    | ok ls => rfl
  · rw [if_neg hcond, if_neg hcond]

/-! ## Lemmas about the force simulation -/

theorem samePos_refl (a : List PhysNode) : SamePos a a :=
  ⟨rfl, fun _ => ⟨rfl, rfl, rfl⟩⟩

theorem samePos_trans {a b c : List PhysNode} (h1 : SamePos a b) (h2 : SamePos b c) :
    SamePos a c :=
  ⟨h2.1.trans h1.1, fun k =>
    ⟨(h2.2 k).1.trans (h1.2 k).1, (h2.2 k).2.1.trans (h1.2 k).2.1,
     (h2.2 k).2.2.trans (h1.2 k).2.2⟩⟩

theorem preservesPos_addVel (dvx dvy : ℝ) : PreservesPos (addVel dvx dvy) :=
  fun _ => ⟨rfl, rfl, rfl⟩

theorem preservesPos_centerPull (cf cx cy : ℝ) : PreservesPos (centerPull cf cx cy) :=
  fun _ => ⟨rfl, rfl, rfl⟩

theorem modifyAt_samePos (f : PhysNode → PhysNode) (hf : PreservesPos f) :
    ∀ (k : Nat) (l : List PhysNode), SamePos l (modifyAt f k l) := by
  intro k l
  induction l generalizing k with
  | nil => cases k <;> exact samePos_refl []
  | cons n rest ih =>
    cases k with
    | zero =>
      refine ⟨rfl, fun j => ?_⟩
      cases j with
      | zero => exact hf n
      | succ j => exact ⟨rfl, rfl, rfl⟩
    | succ k =>
      have hrest := ih k
      refine ⟨by simp only [modifyAt, List.length_cons, hrest.1], fun j => ?_⟩
      cases j with
      | zero => exact ⟨rfl, rfl, rfl⟩
      | succ j => exact hrest.2 j

theorem foldl_samePos {α : Type} (g : List PhysNode → α → List PhysNode)
    (hg : ∀ ns a, SamePos ns (g ns a)) :
    ∀ (l : List α) (ns : List PhysNode), SamePos ns (l.foldl g ns) := by
  intro l
  induction l with
  | nil => intro ns; exact samePos_refl ns
  | cons a rest ih => intro ns; exact samePos_trans (hg ns a) (ih (g ns a))

theorem repulsionPair_samePos (cutoff : Bool) (rf : ℝ) (ns : List PhysNode) (i j : Nat) :
    SamePos ns (repulsionPair cutoff rf ns i j) := by
  unfold repulsionPair
  dsimp only
  split
  · exact samePos_trans (modifyAt_samePos _ (preservesPos_addVel _ _) _ _)
      (modifyAt_samePos _ (preservesPos_addVel _ _) _ _)
  · exact samePos_refl _

theorem springLink_samePos (ld : ℝ) (ns : List PhysNode) (l : PhysLink) :
    SamePos ns (springLink ld ns l) := by
  unfold springLink
  split
  · exact samePos_trans (modifyAt_samePos _ (preservesPos_addVel _ _) _ _)
      (modifyAt_samePos _ (preservesPos_addVel _ _) _ _)
  · exact samePos_refl _

theorem springPhase_samePos (ld : ℝ) (ns : List PhysNode) (links : List PhysLink) :
    SamePos ns (springPhase ld ns links) :=
  foldl_samePos (springLink ld) (springLink_samePos ld) links ns

theorem forcesPhase5_samePos (cf rf w h : ℝ) (ns : List PhysNode) :
    SamePos ns (forcesPhase5 cf rf w h ns) := by
  unfold forcesPhase5
  refine foldl_samePos _ ?_ _ _
  intro ms i
  exact samePos_trans (modifyAt_samePos _ (preservesPos_centerPull _ _ _) i ms)
    (foldl_samePos _ (fun ns2 j => repulsionPair_samePos true rf ns2 i j) _ _)

theorem repulsionPhase4_samePos (rf : ℝ) (ns : List PhysNode) :
    SamePos ns (repulsionPhase4 rf ns) := by
  unfold repulsionPhase4
  refine foldl_samePos _ ?_ _ _
  intro ms i
  exact foldl_samePos _ (fun ns2 j => repulsionPair_samePos false rf ns2 i j) _ _

theorem mapWithIndex_getD (f : Nat → PhysNode → PhysNode) :
    ∀ (l : List PhysNode) (s k : Nat), k < l.length →
      (mapWithIndex f s l).getD k default = f (s + k) (l.getD k default) := by
  intro l
  induction l with
  | nil => intro s k h; simp at h
  | cons n rest ih =>
    intro s k h
    cases k with
    | zero => simp [mapWithIndex]
    | succ k =>
      have hk : k < rest.length := by simpa using h
      show (mapWithIndex f (s + 1) rest).getD k default = _
      rw [ih (s + 1) k hk]
      congr 1
      omega

theorem updatePhysics5_getD (cf rf ld w h : ℝ) (isD : Bool) (dn : Option Nat)
    (nodes : List PhysNode) (links : List PhysLink) (k : Nat) (hk : k < nodes.length) :
    (updatePhysics5 cf rf ld w h isD dn nodes links).getD k default
      = (if notDragged isD dn k
         then integrateNode5 0.1
           ((springPhase ld (forcesPhase5 cf rf w h nodes) links).getD k default)
         else (springPhase ld (forcesPhase5 cf rf w h nodes) links).getD k default) := by
  have hsp : SamePos nodes (springPhase ld (forcesPhase5 cf rf w h nodes) links) :=
    samePos_trans (forcesPhase5_samePos cf rf w h nodes)
      (springPhase_samePos ld _ links)
  unfold updatePhysics5
  rw [mapWithIndex_getD _ _ 0 k (by rw [hsp.1]; exact hk), Nat.zero_add]

theorem updatePhysics4_getD (rf ld w h : ℝ) (isD : Bool) (dn : Option Nat)
    (nodes : List PhysNode) (links : List PhysLink) (k : Nat) (hk : k < nodes.length) :
    (updatePhysics4 rf ld w h isD dn nodes links).getD k default
      = (if notDragged isD dn k
         then integrateNode4 0.1 w h
           ((springPhase ld (repulsionPhase4 rf nodes) links).getD k default)
         else (springPhase ld (repulsionPhase4 rf nodes) links).getD k default) := by
  have hsp : SamePos nodes (springPhase ld (repulsionPhase4 rf nodes) links) :=
    samePos_trans (repulsionPhase4_samePos rf nodes) (springPhase_samePos ld _ links)
  unfold updatePhysics4
  rw [mapWithIndex_getD _ _ 0 k (by rw [hsp.1]; exact hk), Nat.zero_add]

/-! ## Claim theorems for the force simulation -/

/-- C9 counterexample: the claim that each non-dragged node's position is
(exactly) incremented by the damped velocity times the step scale is false
for the part_004 variant, because its integration loop clamps the result into
the canvas afterwards: a resting node at x = 90 on a 100-wide canvas ends at
80, not 90. -/
theorem claim_C9_counterexample :
    ¬ (∀ (rf ld w h : ℝ) (nodes : List PhysNode) (links : List PhysLink)
        (isDragging : Bool) (dragNode : Option Nat) (k : Nat),
        k < nodes.length → notDragged isDragging dragNode k →
        ((updatePhysics4 rf ld w h isDragging dragNode nodes links).getD k default).x
          = (nodes.getD k default).x
            + ((springPhase ld (repulsionPhase4 rf nodes) links).getD k default).vx
              * 0.9 * 0.1) := by
  intro hclaim
  have h1 := hclaim 300 100 100 100 [node90] [] false none 0 (by simp) (Or.inl rfl)
  have heq : springPhase 100 (repulsionPhase4 300 [node90]) [] = [node90] := rfl
  rw [heq] at h1
  have h2 : (updatePhysics4 300 100 100 100 false none [node90] []).getD 0 default
      = integrateNode4 0.1 100 100 node90 := by
    rw [updatePhysics4_getD 300 100 100 100 false none [node90] [] 0 (by simp),
      if_pos (show notDragged false none 0 from Or.inl rfl), heq]
    rfl
  rw [h2] at h1
  have h3 : (integrateNode4 0.1 100 100 node90).x
      = max 20 (min (100 - 20) (90 + 0 * 0.9 * 0.1)) := by
    simp only [integrateNode4, node90]
  rw [h3] at h1
  norm_num [node90] at h1

/-- C9 amended: in one physics update of either variant the dragged node's
position is unchanged, while every other node has its post-force velocity
damped by a factor strictly below 1 (0.85 in part_005, 0.9 in part_004) and
its position incremented by the damped velocity times the step scale 0.1 —
in the part_004 (canvas-modal) variant the incremented position is then
clamped into [20, w-20] x [20, h-20]. -/
theorem claim_C9_integration_step (cf rf ld w h : ℝ) (nodes : List PhysNode)
    (links : List PhysLink) (isDragging : Bool) (dragNode : Option Nat) (k : Nat)
    (hk : k < nodes.length) :
    ((isDragging = true ∧ dragNode = some k) →
      (((updatePhysics5 cf rf ld w h isDragging dragNode nodes links).getD k default).x
          = (nodes.getD k default).x ∧
       ((updatePhysics5 cf rf ld w h isDragging dragNode nodes links).getD k default).y
          = (nodes.getD k default).y) ∧
      (((updatePhysics4 rf ld w h isDragging dragNode nodes links).getD k default).x
          = (nodes.getD k default).x ∧
       ((updatePhysics4 rf ld w h isDragging dragNode nodes links).getD k default).y
          = (nodes.getD k default).y)) ∧
    (notDragged isDragging dragNode k →
      (((updatePhysics5 cf rf ld w h isDragging dragNode nodes links).getD k default).vx
          = ((springPhase ld (forcesPhase5 cf rf w h nodes) links).getD k default).vx
            * 0.85 ∧
       ((updatePhysics5 cf rf ld w h isDragging dragNode nodes links).getD k default).vy
          = ((springPhase ld (forcesPhase5 cf rf w h nodes) links).getD k default).vy
            * 0.85 ∧
       ((updatePhysics5 cf rf ld w h isDragging dragNode nodes links).getD k default).x
          = (nodes.getD k default).x
            + ((springPhase ld (forcesPhase5 cf rf w h nodes) links).getD k default).vx
              * 0.85 * 0.1 ∧
       ((updatePhysics5 cf rf ld w h isDragging dragNode nodes links).getD k default).y
          = (nodes.getD k default).y
            + ((springPhase ld (forcesPhase5 cf rf w h nodes) links).getD k default).vy
              * 0.85 * 0.1) ∧
      (((updatePhysics4 rf ld w h isDragging dragNode nodes links).getD k default).vx
          = ((springPhase ld (repulsionPhase4 rf nodes) links).getD k default).vx
            * 0.9 ∧
       ((updatePhysics4 rf ld w h isDragging dragNode nodes links).getD k default).vy
          = ((springPhase ld (repulsionPhase4 rf nodes) links).getD k default).vy
            * 0.9 ∧
       ((updatePhysics4 rf ld w h isDragging dragNode nodes links).getD k default).x
          = max 20 (min (w - 20)
              ((nodes.getD k default).x
                + ((springPhase ld (repulsionPhase4 rf nodes) links).getD k default).vx
                  * 0.9 * 0.1)) ∧
       ((updatePhysics4 rf ld w h isDragging dragNode nodes links).getD k default).y
          = max 20 (min (h - 20)
              ((nodes.getD k default).y
                + ((springPhase ld (repulsionPhase4 rf nodes) links).getD k default).vy
                  * 0.9 * 0.1)))) := by
  have hsp5 : SamePos nodes (springPhase ld (forcesPhase5 cf rf w h nodes) links) :=
    samePos_trans (forcesPhase5_samePos cf rf w h nodes) (springPhase_samePos ld _ links)
  have hsp4 : SamePos nodes (springPhase ld (repulsionPhase4 rf nodes) links) :=
    samePos_trans (repulsionPhase4_samePos rf nodes) (springPhase_samePos ld _ links)
  constructor
  · rintro ⟨hd, hdn⟩
    have hnot : ¬ notDragged isDragging dragNode k := by
      simp [notDragged, hd, hdn]
    rw [updatePhysics5_getD cf rf ld w h isDragging dragNode nodes links k hk,
      updatePhysics4_getD rf ld w h isDragging dragNode nodes links k hk,
      if_neg hnot, if_neg hnot]
    exact ⟨⟨(hsp5.2 k).1, (hsp5.2 k).2.1⟩, ⟨(hsp4.2 k).1, (hsp4.2 k).2.1⟩⟩
  · intro hnd
    rw [updatePhysics5_getD cf rf ld w h isDragging dragNode nodes links k hk,
      updatePhysics4_getD rf ld w h isDragging dragNode nodes links k hk,
      if_pos hnd, if_pos hnd]
    refine ⟨⟨rfl, rfl, ?_, ?_⟩, ⟨rfl, rfl, ?_, ?_⟩⟩
    · show ((springPhase ld (forcesPhase5 cf rf w h nodes) links).getD k default).x + _ = _
      rw [(hsp5.2 k).1]
    · show ((springPhase ld (forcesPhase5 cf rf w h nodes) links).getD k default).y + _ = _
      rw [(hsp5.2 k).2.1]
    · show max 20 (min (w - 20)
          (((springPhase ld (repulsionPhase4 rf nodes) links).getD k default).x + _)) = _
      rw [(hsp4.2 k).1]
    · show max 20 (min (h - 20)
          (((springPhase ld (repulsionPhase4 rf nodes) links).getD k default).y + _)) = _
      rw [(hsp4.2 k).2.1]

/-- C9 witness: a dragged single node keeps its position (90, 90) under both
variants' updates. -/
theorem claim_C9_witness :
    ((updatePhysics5 0.3 300 100 100 100 true (some 0) [node90] []).getD 0 default).x = 90 ∧
    ((updatePhysics4 300 100 100 100 true (some 0) [node90] []).getD 0 default).x = 90 := by
  have h := (claim_C9_integration_step 0.3 300 100 100 100 [node90] [] true (some 0) 0
    (by simp)).1 ⟨rfl, rfl⟩
  exact ⟨h.1.1.trans rfl, h.2.1.trans rfl⟩

/-- C10: in the canvas-modal (part_004) variant, on a canvas at least 40 wide
and 40 tall, every node not under drag lies inside
[20, w-20] x [20, h-20] after any `updatePhysics` call. -/
theorem claim_C10_clamped_into_canvas (rf ld w h : ℝ) (hw : 40 ≤ w) (hh : 40 ≤ h)
    (nodes : List PhysNode) (links : List PhysLink) (isDragging : Bool)
    (dragNode : Option Nat) (k : Nat) (hk : k < nodes.length)
    (hnd : notDragged isDragging dragNode k) :
    20 ≤ ((updatePhysics4 rf ld w h isDragging dragNode nodes links).getD k default).x ∧
    ((updatePhysics4 rf ld w h isDragging dragNode nodes links).getD k default).x ≤ w - 20 ∧
    20 ≤ ((updatePhysics4 rf ld w h isDragging dragNode nodes links).getD k default).y ∧
    ((updatePhysics4 rf ld w h isDragging dragNode nodes links).getD k default).y ≤ h - 20 := by
  rw [updatePhysics4_getD rf ld w h isDragging dragNode nodes links k hk, if_pos hnd]
  refine ⟨le_max_left _ _, ?_, le_max_left _ _, ?_⟩
  · exact max_le (by linarith) (min_le_left _ _)
  · exact max_le (by linarith) (min_le_left _ _)

/-- C10 witness: the resting node at (90, 90) on the 100 x 100 canvas ends up
inside the interior rectangle. -/
theorem claim_C10_witness :
    20 ≤ ((updatePhysics4 300 100 100 100 false none [node90] []).getD 0 default).x ∧
    ((updatePhysics4 300 100 100 100 false none [node90] []).getD 0 default).x ≤ 100 - 20 ∧
    20 ≤ ((updatePhysics4 300 100 100 100 false none [node90] []).getD 0 default).y ∧
    ((updatePhysics4 300 100 100 100 false none [node90] []).getD 0 default).y ≤ 100 - 20 :=
  claim_C10_clamped_into_canvas 300 100 100 100 (by norm_num) (by norm_num)
    [node90] [] false none 0 (by simp) (Or.inl rfl)

/-! ## Counting the links of one pair (claim C1) -/

theorem count_eq_one_of_mem_nodup {α : Type} [BEq α] [LawfulBEq α] {l : List α}
    {a : α} (hnd : l.Nodup) (ha : a ∈ l) : l.count a = 1 := by
  induction l with
  | nil => simp at ha
  | cons x xs ih =>
    rcases List.mem_cons.mp ha with rfl | hmem
    · rw [List.count_cons_self, List.count_eq_zero.mpr (List.nodup_cons.mp hnd).1]
    · have hne : a ≠ x := fun e => (List.nodup_cons.mp hnd).1 (e ▸ hmem)
      rw [List.count_cons_of_ne hne, ih (List.nodup_cons.mp hnd).2 hmem]

theorem allPairs_nodup (n : Nat) : (allPairs n).Nodup := by
  unfold allPairs
  rw [List.nodup_flatMap]
  constructor
  · intro i _
    exact (List.nodup_range' _ _).map (fun _ _ h => (Prod.mk.inj h).2)
  · apply List.Pairwise.imp ?_ (List.pairwise_lt_range n)
    intro a b hab x hxa hxb
    obtain ⟨j1, _, rfl⟩ := List.mem_map.mp hxa
    obtain ⟨j2, _, heq⟩ := List.mem_map.mp hxb
    have := (Prod.mk.inj heq).1
    omega

theorem getD_eq_getElem_node {l : List GraphNode} {k : Nat} (h : k < l.length) :
    l.getD k default = l[k] := by
  rw [List.getD_eq_getElem?_getD, List.getElem?_eq_getElem h, Option.getD_some]

theorem nodes_id_inj (nodes : List GraphNode)
    (hnd : (nodes.map GraphNode.id).Nodup) {x y : Nat}
    (hx : x < nodes.length) (hy : y < nodes.length)
    (h : (nodes.getD x default).id = (nodes.getD y default).id) : x = y := by
  have hx' : x < (nodes.map GraphNode.id).length := by simpa using hx
  have hy' : y < (nodes.map GraphNode.id).length := by simpa using hy
  refine (@List.Nodup.getElem_inj_iff _ _ hnd _ hx' _ hy').mp ?_
  rw [List.getElem_map, List.getElem_map, ← getD_eq_getElem_node hx,
    ← getD_eq_getElem_node hy]
  exact h

theorem emitEmbeddingLinks_count (st : BetterGraphSettings) (nodes : List GraphNode)
    (i j : Nat) (hij : i < j) (hj : j < nodes.length)
    (hnd : (nodes.map GraphNode.id).Nodup) :
    ∀ (ps : List (Nat × Nat)) (L : List GraphLink),
      (∀ p ∈ ps, p.1 < p.2 ∧ p.2 < nodes.length) →
      emitEmbeddingLinks st nodes ps = Except.ok L →
      (L.countP fun l => l.source == (nodes.getD i default).id
          && l.target == (nodes.getD j default).id)
        = ps.count (i, j) *
          (match (nodes.getD i default).embedding, (nodes.getD j default).embedding with
           | some ea, some eb =>
             if st.similarityThreshold ≤ cosineSimilarityVal ea eb then 1 else 0
           | _, _ => 0) := by
  intro ps
  induction ps with
  | nil =>
    intro L hps hok
    simp only [emitEmbeddingLinks] at hok
    obtain rfl := Except.ok.inj hok
    simp
  | cons p rest ih =>
    intro L hps hok
    obtain ⟨a, b⟩ := p
    have hab := hps (a, b) (List.mem_cons_self _ _)
    have hrest : ∀ q ∈ rest, q.1 < q.2 ∧ q.2 < nodes.length :=
      fun q hq => hps q (List.mem_cons_of_mem _ hq)
    simp only [emitEmbeddingLinks] at hok
    by_cases hpq : ((i, j) : Nat × Nat) = (a, b)
    · obtain ⟨rfl, rfl⟩ := Prod.mk.inj hpq
      cases hA : (nodes.getD i default).embedding with
      | none =>
        rw [hA] at hok
        dsimp only at hok
        rw [ih L hrest hok, hA, List.count_cons_self]
        dsimp only
        simp
      | some ea =>
        rw [hA] at hok
        cases hB : (nodes.getD j default).embedding with
        | none =>
          rw [hB] at hok
          dsimp only at hok
          rw [ih L hrest hok, hA, hB, List.count_cons_self]
          dsimp only
          simp
        | some eb =>
          rw [hB] at hok
          dsimp only at hok
          cases hC : calculateCosineSimilarity ea eb with
          | error e => rw [hC] at hok; simp at hok
          | ok similarity =>
            rw [hC] at hok
            dsimp only at hok
            cases hR : emitEmbeddingLinks st nodes rest with
            | error e => rw [hR] at hok; simp at hok
            | ok ls =>
              rw [hR] at hok
              dsimp only at hok
              obtain rfl := Except.ok.inj hok
              have hsim : similarity = cosineSimilarityVal ea eb := by
                unfold calculateCosineSimilarity at hC
                by_cases hlen : ea.length ≠ eb.length
                · rw [if_pos hlen] at hC; simp at hC
                · rw [if_neg hlen] at hC
                  exact (Except.ok.inj hC).symm
              subst hsim
              rw [List.countP_append, ih ls hrest hR, hA, hB, List.count_cons_self]
              dsimp only
              by_cases hle : st.similarityThreshold ≤ cosineSimilarityVal ea eb
              · rw [if_pos hle, if_pos hle]
                simp only [List.countP_cons, List.countP_nil, beq_self_eq_true,
                  Bool.and_self, if_pos, Nat.zero_add, Nat.mul_one]
                omega
              · rw [if_neg hle, if_neg hle]
                simp
    · cases hA : (nodes.getD a default).embedding with
      | none =>
        rw [hA] at hok
        dsimp only at hok
        rw [ih L hrest hok, List.count_cons_of_ne hpq]
      | some ea =>
        rw [hA] at hok
        cases hB : (nodes.getD b default).embedding with
        | none =>
          rw [hB] at hok
          dsimp only at hok
          rw [ih L hrest hok, List.count_cons_of_ne hpq]
        | some eb =>
          rw [hB] at hok
          dsimp only at hok
          cases hC : calculateCosineSimilarity ea eb with
          | error e => rw [hC] at hok; simp at hok
          | ok similarity =>
            rw [hC] at hok
            dsimp only at hok
            cases hR : emitEmbeddingLinks st nodes rest with
            | error e => rw [hR] at hok; simp at hok
            | ok ls =>
              rw [hR] at hok
              dsimp only at hok
              obtain rfl := Except.ok.inj hok
              have hpred : ((nodes.getD a default).id == (nodes.getD i default).id
                  && (nodes.getD b default).id == (nodes.getD j default).id) = false := by
                by_cases h1 : (nodes.getD a default).id = (nodes.getD i default).id
                · have ha : a = i := nodes_id_inj nodes hnd (by omega) (by omega) h1
                  by_cases h2 : (nodes.getD b default).id = (nodes.getD j default).id
                  · have hb : b = j := nodes_id_inj nodes hnd (by omega) hj h2
                    exact absurd (by rw [ha, hb]) hpq
                  · rw [beq_eq_false_iff_ne.mpr h2, Bool.and_false]
                · rw [beq_eq_false_iff_ne.mpr h1, Bool.false_and]
              have hseg : ∀ seg : List GraphLink,
                  seg = (if st.similarityThreshold ≤ similarity then
                    [{ source := (nodes.getD a default).id,
                       target := (nodes.getD b default).id,
                       id := (nodes.getD a default).id ++ "<->" ++ (nodes.getD b default).id,
                       similarity := some similarity,
                       thickness := calculateThicknessFromSimilarity st similarity,
                       ltype := none }] else []) →
                  (seg.countP fun l => l.source == (nodes.getD i default).id
                    && l.target == (nodes.getD j default).id) = 0 := by
                intro seg hsegdef
                by_cases hle : st.similarityThreshold ≤ similarity
                · rw [if_pos hle] at hsegdef
                  subst hsegdef
                  rw [List.countP_cons, List.countP_nil]
                  dsimp only
                  rw [hpred]
                  rfl
                · rw [if_neg hle] at hsegdef
                  subst hsegdef
                  rfl
              rw [List.countP_append, ih ls hrest hR, List.count_cons_of_ne hpq,
                hseg _ rfl, Nat.zero_add]

/-- C1: in the semantic-similarity strategy, for a pair `i < j` of nodes
(with pairwise-distinct ids), exactly one link keyed on that pair's ids is
emitted if and only if both nodes carry an embedding and their cosine
similarity is at least (inclusive) `similarityThreshold`; a pair where either
node lacks an embedding never produces a link. -/
theorem claim_C1_pairwise_similarity_links (st : BetterGraphSettings)
    (nodes : List GraphNode) (i j : Nat) (hij : i < j) (hj : j < nodes.length)
    (hnd : (nodes.map GraphNode.id).Nodup) (L : List GraphLink)
    (hok : createEmbeddingBasedLinks st nodes = Except.ok L) :
    (L.countP fun l => l.source == (nodes.getD i default).id
        && l.target == (nodes.getD j default).id)
      = (match (nodes.getD i default).embedding, (nodes.getD j default).embedding with
         | some ea, some eb =>
           if st.similarityThreshold ≤ cosineSimilarityVal ea eb then 1 else 0
         | _, _ => 0) := by
  have hcount : (allPairs nodes.length).count (i, j) = 1 :=
    count_eq_one_of_mem_nodup (allPairs_nodup _) (mem_allPairs.mpr ⟨hij, hj⟩)
  have h := emitEmbeddingLinks_count st nodes i j hij hj hnd (allPairs nodes.length) L
    (fun p hp => by
      obtain ⟨a, b⟩ := p
      exact mem_allPairs.mp hp)
    hok
  rw [hcount, Nat.one_mul] at h
  exact h

/-- C1 witness: in the two-node graph of the sample vault (no embeddings,
distinct ids), the pair (0, 1) produces no link. -/
theorem claim_C1_witness :
    ∃ L, createEmbeddingBasedLinks DEFAULT_SETTINGS (buildFileNodes sampleVault)
        = Except.ok L ∧
      (L.countP fun l =>
          l.source == ((buildFileNodes sampleVault).getD 0 default).id
          && l.target == ((buildFileNodes sampleVault).getD 1 default).id) = 0 := by
  refine ⟨[], rfl, ?_⟩
  have h := claim_C1_pairwise_similarity_links DEFAULT_SETTINGS
    (buildFileNodes sampleVault) 0 1 (by norm_num)
    (by rw [show (buildFileNodes sampleVault).length = 2 from rfl]; norm_num)
    (by rw [show (buildFileNodes sampleVault).map GraphNode.id = ["A.md", "B.md"] from rfl]
        decide)
    [] rfl
  exact h.trans (by rfl)

end

end Opal
